import Mathlib

/-!
Shallow embedding of the core of `src/app.py` (a pastebin web application):
the `Paste` record, slug validation (`is_safe_slug`), random slug allocation
(`generate_unique_slug`), markdown rendering (`render_markdown`), the create
handler (`index`, POST branch) and the edit handler (`edit_paste`, POST
branch).

Modelling conventions:
- The database is a `List Paste`; `Paste.query.filter_by(slug=...).first()`
  is `findPaste` (first record with that slug).
- Timestamps are `Nat` (UTC instants); the current time is an explicit `now`
  argument.
- `werkzeug`'s `generate_password_hash` / `check_password_hash` are opaque
  external functions, passed as parameters `hashFn` / `checkHash`.
- `secrets.token_urlsafe` is an external cryptographic generator: it is
  modelled as the stream `tokens : List String` of the successive values it
  would produce; `generate_unique_slug`'s unbounded `while True` loop becomes
  a search through that stream, `none` standing for non-termination.
- A `db.session.commit()` that raises (caught by the `except` branches, which
  roll back) is modelled by the flag `persistOk : Bool`.
- Form fields absent from the request (`request.form.get` returning `None`)
  are modelled as `""`: the handlers only ever test them for falsiness, for
  which `None` and `""` behave identically.
- Python `str.strip()` is `pyStrip` (ASCII whitespace; the Unicode whitespace
  code points also stripped by Python play no role in any claim).
- Python `re.match(r'^[a-zA-Z0-9_-]+$', s)` is modelled faithfully, including
  the `re` semantics of `$`, which also matches just before a newline that
  ends the string.
-/

/-- One character of the slug alphabet `[a-zA-Z0-9_-]`. -/
def isSlugChar (c : Char) : Bool :=
  (('a' ≤ c) && (c ≤ 'z')) || (('A' ≤ c) && (c ≤ 'Z')) ||
    (('0' ≤ c) && (c ≤ '9')) || c == '-' || c == '_'

/-- Characters removed by Python `str.strip()` (ASCII part). -/
def isPySpace (c : Char) : Bool :=
  c == ' ' || c == '\t' || c == '\n' || c == '\r' || c == '\x0b' || c == '\x0c'

/-- Python `str.strip()` on the character list. -/
def pyStripList (cs : List Char) : List Char :=
  ((cs.dropWhile isPySpace).reverse.dropWhile isPySpace).reverse

/-- Python `str.strip()` with no arguments. -/
def pyStrip (s : String) : String :=
  ⟨pyStripList s.data⟩

/-- Python `re.match(r'^[a-zA-Z0-9_-]+$', ·) is not None` on a character
list: either every character is in the class (and there is at least one), or
the string ends in a newline and everything before that newline is a
non-empty run of class characters (`$` also matches just before a final
newline). -/
def reMatchesSlug (cs : List Char) : Bool :=
  (!cs.isEmpty && cs.all isSlugChar) ||
    (cs.getLast? == some '\n' && !cs.dropLast.isEmpty && cs.dropLast.all isSlugChar)

/-- `is_safe_slug` from `src/app.py`: `slug and re.match(r'^[a-zA-Z0-9_-]+$',
slug) is not None`, as a boolean (the handler only uses its truthiness). -/
def is_safe_slug (s : String) : Bool :=
  reMatchesSlug s.data

/-- The persisted `Paste` model of `src/app.py` (`id`, `slug`, `content`,
`password_hash`, `created_at`, nullable `updated_at`). -/
structure Paste where
  id : Nat
  slug : String
  content : String
  password_hash : String
  created_at : Nat
  updated_at : Option Nat
  deriving DecidableEq

/-- `Paste.query.filter_by(slug=slug).first()`. -/
def findPaste (store : List Paste) (slug : String) : Option Paste :=
  store.find? (fun p => p.slug == slug)

/-- `generate_unique_slug` from `src/app.py`: draw tokens from the generator
stream until one has no existing owner; `none` models the loop never
finding one within the given stream. -/
def generate_unique_slug (tokens : List String) (store : List Paste) : Option String :=
  tokens.find? (fun t => (findPaste store t).isNone)

/-- Failure modes of the create handler (`index`, POST), one per distinct
flash branch. -/
inductive CreateError where
  | EmptyContent
  | EmptyPassword
  | InvalidFormat
  | AlreadyTaken
  | PersistenceError
  deriving DecidableEq

/-- Outcome of the create handler. -/
inductive CreateResult where
  | ok (slug : String)
  | err (e : CreateError)
  deriving DecidableEq

/-- Result of a create request together with the store it leaves behind. -/
structure CreateOutcome where
  result : CreateResult
  store : List Paste
  deriving DecidableEq

/-- The tail of the `index` POST handler once a slug has been chosen:
`generate_password_hash`, construction of the new `Paste` row (`created_at`
defaults to the current time, `updated_at` to NULL, `id` is store-assigned),
and the `db.session.add`/`commit` guarded by the rollback branch. -/
def insert_paste (hashFn : String → String) (now : Nat) (store : List Paste)
    (content password slug_to_use : String) (persistOk : Bool) : CreateOutcome :=
  if persistOk then
    ⟨CreateResult.ok slug_to_use,
      store ++ [⟨store.length, slug_to_use, content, hashFn password, now, none⟩]⟩
  else ⟨CreateResult.err CreateError.PersistenceError, store⟩

/-- Body of the `index` POST handler after `custom_slug` has been stripped
(line 109 of `src/app.py` does `request.form.get('custom_slug', '').strip()`
before anything else). Follows the source order: empty-content check,
empty-password check, then slug selection (validated custom slug, or random)
and the guarded insert. -/
def create_with_slug (hashFn : String → String) (now : Nat) (tokens : List String)
    (store : List Paste) (content password custom_slug : String)
    (persistOk : Bool) : Option CreateOutcome :=
  if content == "" then some ⟨CreateResult.err CreateError.EmptyContent, store⟩
  else if password == "" then some ⟨CreateResult.err CreateError.EmptyPassword, store⟩
  else if custom_slug == "" then
    match generate_unique_slug tokens store with
    | none => none
    | some slug => some (insert_paste hashFn now store content password slug persistOk)
  else if is_safe_slug custom_slug then
    if (findPaste store custom_slug).isSome then
      some ⟨CreateResult.err CreateError.AlreadyTaken, store⟩
    else some (insert_paste hashFn now store content password custom_slug persistOk)
  else some ⟨CreateResult.err CreateError.InvalidFormat, store⟩

/-- The `index` POST handler of `src/app.py`: strips the submitted custom
slug, then runs the validation/allocation/insert pipeline. -/
def index_post (hashFn : String → String) (now : Nat) (tokens : List String)
    (store : List Paste) (content password custom_slug_raw : String)
    (persistOk : Bool) : Option CreateOutcome :=
  create_with_slug hashFn now tokens store content password
    (pyStrip custom_slug_raw) persistOk

/-- Failure modes of the edit handler (`edit_paste`, POST), one per distinct
flash/abort branch. -/
inductive UpdateError where
  | NotFound
  | EmptyContent
  | EmptyPassword
  | WrongPassword
  | PersistenceError
  deriving DecidableEq

/-- Outcome of the edit handler. -/
inductive UpdateResult where
  | ok
  | err (e : UpdateError)
  deriving DecidableEq

/-- Result of an edit request together with the store it leaves behind. -/
structure UpdateOutcome where
  result : UpdateResult
  store : List Paste
  deriving DecidableEq

/-- Replace the record(s) with the given slug using `f` (the SQLAlchemy
committed mutation of a fetched row). -/
def updateStore (store : List Paste) (slug : String) (f : Paste → Paste) : List Paste :=
  store.map (fun p => if p.slug == slug then f p else p)

/-- The `edit_paste` POST handler of `src/app.py`: `first_or_404` lookup,
empty-content check, empty-password check, `check_password_hash` gate, then
`paste.content = new_content` followed by `db.session.commit()`. The
model's `updated_at` is stamped by the SQLAlchemy `onupdate` hook, which
fires only inside an emitted UPDATE statement; when the assigned content
equals the committed value the session flushes no net change, no UPDATE is
emitted, and the record — `updated_at` included — is left untouched while
the handler still reports success. A failing commit of an emitted UPDATE
rolls back (`persistOk = false`). -/
def edit_paste_post (checkHash : String → String → Bool) (now : Nat)
    (store : List Paste) (slug new_content password : String)
    (persistOk : Bool) : UpdateOutcome :=
  match findPaste store slug with
  | none => ⟨UpdateResult.err UpdateError.NotFound, store⟩
  | some paste =>
    if new_content == "" then ⟨UpdateResult.err UpdateError.EmptyContent, store⟩
    else if password == "" then ⟨UpdateResult.err UpdateError.EmptyPassword, store⟩
    else if checkHash paste.password_hash password then
      if new_content == paste.content then ⟨UpdateResult.ok, store⟩
      else if persistOk then
        ⟨UpdateResult.ok,
          updateStore store slug
            (fun p => { p with content := new_content, updated_at := some now })⟩
      else ⟨UpdateResult.err UpdateError.PersistenceError, store⟩
    else ⟨UpdateResult.err UpdateError.WrongPassword, store⟩

/-- `ALLOWED_EXTENSIONS` from `src/app.py`. -/
def ALLOWED_EXTENSIONS : List String :=
  ["markdown.extensions.fenced_code", "markdown.extensions.codehilite",
   "markdown.extensions.tables"]

/-- `bleach.sanitizer.ALLOWED_TAGS` (the library's default allow-list). -/
def BLEACH_DEFAULT_TAGS : List String :=
  ["a", "abbr", "acronym", "b", "blockquote", "code", "em", "i", "li", "ol",
   "strong", "ul"]

/-- The extra tags `src/app.py` unions onto the bleach defaults. -/
def EXTRA_ALLOWED_TAGS : List String :=
  ["p", "pre", "code", "h1", "h2", "h3", "h4", "h5", "h6", "strong", "em",
   "ul", "ol", "li", "a", "img", "blockquote", "hr", "table", "thead",
   "tbody", "tr", "th", "td", "span"]

/-- `BLEACH_ALLOWED_TAGS` from `src/app.py`: the set union of the bleach
defaults and the extra tags (as a duplicate-free list). -/
def BLEACH_ALLOWED_TAGS : List String :=
  BLEACH_DEFAULT_TAGS ++
    EXTRA_ALLOWED_TAGS.filter (fun t => !BLEACH_DEFAULT_TAGS.contains t)

/-- `BLEACH_ALLOWED_ATTRIBUTES` from `src/app.py`: the bleach default
attribute map (`a`, `abbr`, `acronym`) overlaid with the app's entries; the
`a` entry of the defaults is overwritten by the app's identical one. -/
def BLEACH_ALLOWED_ATTRIBUTES : List (String × List String) :=
  [("abbr", ["title"]), ("acronym", ["title"]),
   ("img", ["src", "alt", "title"]), ("a", ["href", "title"]),
   ("code", ["class"]), ("span", ["class"]), ("pre", []), ("div", ["class"])]

/-- `render_markdown` from `src/app.py`, with the external `markdown` library
call (`md`, taking the content and the extension list; the codehilite
`css_class` configuration is part of the opaque renderer) and the external
`bleach.clean` call (`clean`, taking the html, the tag allow-list and the
attribute allow-list) as parameters. -/
def render_markdown (md : String → List String → String)
    (clean : String → List String → List (String × List String) → String)
    (content : String) : String :=
  clean (md content ALLOWED_EXTENSIONS) BLEACH_ALLOWED_TAGS BLEACH_ALLOWED_ATTRIBUTES

/-- A slug acceptable for persistence: non-empty, every character in
`[a-zA-Z0-9_-]`. -/
def goodSlugB (s : String) : Bool :=
  !(s == "") && s.data.all isSlugChar

/-- The timestamp invariant on one record: `updated_at`, when present, is
at least `created_at`. -/
def pasteTimeOk (p : Paste) : Prop :=
  ∀ t, p.updated_at = some t → p.created_at ≤ t

example : is_safe_slug "abc" = true := by decide
example : is_safe_slug "" = false := by decide
example : is_safe_slug "a b" = false := by decide
example : is_safe_slug "abc\n" = true := by decide
example : is_safe_slug "\n" = false := by decide
example : is_safe_slug "a\n\n" = false := by decide
example : pyStrip "  my-post \t" = "my-post" := by decide
example : pyStrip "   " = "" := by decide

/-- A string equals `""` exactly when its character list is empty. -/
theorem String.eq_empty_iff_data {s : String} : s = "" ↔ s.data = [] := by
  constructor
  · intro h
    rw [h]
  · intro h
    cases s with
    | mk l => exact congrArg String.mk h

/-- A string differs from `""` exactly when its character list is non-empty. -/
theorem String.ne_empty_iff_data {s : String} : s ≠ "" ↔ s.data ≠ [] :=
  not_congr String.eq_empty_iff_data

/-- The head of a `dropWhile` never satisfies the dropped predicate. -/
theorem head?_dropWhile_false (p : Char → Bool) (l : List Char) :
    ∀ c, (l.dropWhile p).head? = some c → p c = false := by
  induction l with
  | nil => intro c h; cases h
  | cons a t ih =>
    intro c h
    rw [List.dropWhile_cons] at h
    split at h
    · exact ih c h
    · next hpa =>
      have hc : a = c := by simpa using h
      subst hc
      exact Bool.eq_false_iff.mpr hpa

/-- A non-empty `dropWhile` keeps the last element of the original list. -/
theorem getLast?_dropWhile (p : Char → Bool) (l : List Char)
    (h : l.dropWhile p ≠ []) : (l.dropWhile p).getLast? = l.getLast? := by
  induction l with
  | nil => simp [List.dropWhile] at h
  | cons a t ih =>
    by_cases hpa : p a = true
    · rw [List.dropWhile_cons, if_pos hpa] at h ⊢
      rw [ih h]
      cases t with
      | nil => simp [List.dropWhile] at h
      | cons b u => rw [List.getLast?_cons_cons]
    · rw [List.dropWhile_cons, if_neg hpa]

/-- Characterisation of `getLast?` by a final-segment decomposition. -/
theorem getLast?_eq_some_iff_concat (l : List Char) (c : Char) :
    l.getLast? = some c ↔ ∃ t, l = t ++ [c] := by
  constructor
  · intro h
    cases hr : l.reverse with
    | nil =>
      rw [← List.head?_reverse, hr] at h
      cases h
    | cons a t =>
      rw [← List.head?_reverse, hr] at h
      have ha : a = c := by simpa using h
      refine ⟨t.reverse, ?_⟩
      have hl : l = (a :: t).reverse := by rw [← hr, List.reverse_reverse]
      rw [hl, List.reverse_cons, ha]
  · rintro ⟨t, rfl⟩
    exact List.getLast?_concat t

/-- `pyStrip` acts on the underlying character list. -/
theorem pyStrip_data (s : String) : (pyStrip s).data = pyStripList s.data := rfl

/-- The stripped list never ends in a whitespace character. -/
theorem pyStripList_getLast?_not_space (cs : List Char) (c : Char)
    (h : (pyStripList cs).getLast? = some c) : isPySpace c = false := by
  unfold pyStripList at h
  rw [List.getLast?_reverse] at h
  exact head?_dropWhile_false isPySpace _ c h

/-- Dropping a predicate no element satisfies is the identity. -/
theorem dropWhile_eq_self_of_all {p : Char → Bool} {l : List Char}
    (h : ∀ c ∈ l, p c = false) : l.dropWhile p = l := by
  induction l with
  | nil => rfl
  | cons a t ih =>
    rw [List.dropWhile_cons, if_neg (by rw [h a (List.mem_cons_self a t)]; simp)]

/-- Stripping a string with no whitespace characters is the identity. -/
theorem pyStrip_eq_self {s : String} (h : ∀ c ∈ s.data, isPySpace c = false) :
    pyStrip s = s := by
  unfold pyStrip pyStripList
  rw [dropWhile_eq_self_of_all h,
    dropWhile_eq_self_of_all (fun c hc => h c (List.mem_reverse.mp hc)),
    List.reverse_reverse]

/-- No slug-alphabet character is Python whitespace. -/
theorem isSlugChar_not_space {c : Char} (h : isSlugChar c = true) :
    isPySpace c = false := by
  cases hc : isPySpace c
  · rfl
  · exfalso
    have hc' : c = ' ' ∨ c = '\t' ∨ c = '\n' ∨ c = '\r' ∨ c = '\x0b' ∨ c = '\x0c' := by
      simpa [isPySpace, or_assoc] using hc
    rcases hc' with h1 | h1 | h1 | h1 | h1 | h1 <;> subst h1 <;>
      exact absurd h (by decide)

/-- A non-empty all-slug-character string passes `is_safe_slug`. -/
theorem is_safe_slug_of_good {s : String} (h1 : s ≠ "")
    (h2 : s.data.all isSlugChar = true) : is_safe_slug s = true := by
  have hd : s.data ≠ [] := String.ne_empty_iff_data.mp h1
  unfold is_safe_slug reMatchesSlug
  cases hm : s.data with
  | nil => exact absurd hm hd
  | cons a t =>
    rw [hm] at h2
    simp [h2]

/-- Exact characterisation of `is_safe_slug` (the Python `re.match` with `$`
also matching just before a final newline): true iff the string is a
non-empty run of slug characters, possibly followed by one final newline. -/
theorem is_safe_slug_iff (s : String) :
    is_safe_slug s = true ↔
      (s.data ≠ [] ∧ s.data.all isSlugChar = true) ∨
      (∃ t, s.data = t ++ ['\n'] ∧ t ≠ [] ∧ t.all isSlugChar = true) := by
  unfold is_safe_slug reMatchesSlug
  rw [Bool.or_eq_true]
  constructor
  · rintro (h | h)
    · rw [Bool.and_eq_true] at h
      exact Or.inl ⟨by simpa using h.1, h.2⟩
    · right
      rw [Bool.and_eq_true, Bool.and_eq_true] at h
      obtain ⟨⟨hc, hne⟩, hall⟩ := h
      have hl : s.data.getLast? = some '\n' := by simpa using hc
      obtain ⟨t, ht⟩ := (getLast?_eq_some_iff_concat s.data '\n').mp hl
      refine ⟨t, ht, ?_, ?_⟩
      · intro h0
        rw [ht, List.dropLast_concat, h0] at hne
        simp at hne
      · rw [ht, List.dropLast_concat] at hall
        exact hall
  · rintro (⟨hne, hall⟩ | ⟨t, ht, htne, hall⟩)
    · left
      rw [Bool.and_eq_true]
      exact ⟨by simpa using hne, hall⟩
    · right
      rw [ht, List.getLast?_concat, List.dropLast_concat]
      rw [Bool.and_eq_true, Bool.and_eq_true]
      refine ⟨⟨by simp, by simpa using htne⟩, hall⟩

/-- Case analysis on a returning create: either the store is unchanged (a
validation failure or a rolled-back commit), or exactly one new record was
appended, whose slug is the validated non-empty custom slug or a token
returned by the random allocator. -/
theorem create_with_slug_cases (hashFn : String → String) (now : Nat)
    (tokens : List String) (store : List Paste)
    (content password custom_slug : String) (persistOk : Bool)
    (out : CreateOutcome)
    (h : create_with_slug hashFn now tokens store content password custom_slug
      persistOk = some out) :
    out.store = store ∨
    ∃ slug, out = ⟨CreateResult.ok slug,
        store ++ [⟨store.length, slug, content, hashFn password, now, none⟩]⟩ ∧
      ((custom_slug = slug ∧ is_safe_slug slug = true ∧ slug ≠ "") ∨
        generate_unique_slug tokens store = some slug) := by
  unfold create_with_slug at h
  split at h
  · rw [Option.some.injEq] at h
    subst h
    exact Or.inl rfl
  · split at h
    · rw [Option.some.injEq] at h
      subst h
      exact Or.inl rfl
    · split at h
      · split at h
        · cases h
        · rename_i slug hgus
          rw [Option.some.injEq] at h
          subst h
          unfold insert_paste
          split
          · exact Or.inr ⟨slug, rfl, Or.inr hgus⟩
          · exact Or.inl rfl
      · rename_i hcs
        split at h
        · rename_i hsafe
          split at h
          · rw [Option.some.injEq] at h
            subst h
            exact Or.inl rfl
          · rw [Option.some.injEq] at h
            subst h
            unfold insert_paste
            split
            · exact Or.inr ⟨custom_slug, rfl, Or.inl ⟨rfl, hsafe, by simpa using hcs⟩⟩
            · exact Or.inl rfl
        · rw [Option.some.injEq] at h
          subst h
          exact Or.inl rfl

/-- Case analysis on an edit: either the result is an error and the store is
returned unchanged; or the submitted content equals the stored one, no
UPDATE is emitted and the store is returned unchanged with success; or the
result is success and the record with the requested slug was rewritten with
the new content and the update timestamp. -/
theorem edit_paste_post_cases (checkHash : String → String → Bool) (now : Nat)
    (store : List Paste) (slug new_content password : String) (persistOk : Bool) :
    (∃ e, edit_paste_post checkHash now store slug new_content password persistOk =
        ⟨UpdateResult.err e, store⟩) ∨
    (∃ paste, findPaste store slug = some paste ∧ new_content = paste.content ∧
      edit_paste_post checkHash now store slug new_content password persistOk =
        ⟨UpdateResult.ok, store⟩) ∨
    (∃ paste, findPaste store slug = some paste ∧ new_content ≠ paste.content ∧
      edit_paste_post checkHash now store slug new_content password persistOk =
        ⟨UpdateResult.ok,
          updateStore store slug
            (fun p => { p with content := new_content, updated_at := some now })⟩) := by
  unfold edit_paste_post
  split
  · exact Or.inl ⟨_, rfl⟩
  · rename_i paste hfind
    split
    · exact Or.inl ⟨_, rfl⟩
    · split
      · exact Or.inl ⟨_, rfl⟩
      · split
        · split
          · rename_i hsame
            exact Or.inr (Or.inl ⟨paste, hfind, by simpa using hsame, rfl⟩)
          · rename_i hdiff
            split
            · exact Or.inr (Or.inr ⟨paste, hfind, by simpa using hdiff, rfl⟩)
            · exact Or.inl ⟨_, rfl⟩
        · exact Or.inl ⟨_, rfl⟩

/-- Updating under a slug leaves lookup of that slug pointing at the
transformed record, provided the transformation preserves the slug. -/
theorem findPaste_updateStore (store : List Paste) (slug : String)
    (f : Paste → Paste) (hf : ∀ p, (f p).slug = p.slug) :
    findPaste (updateStore store slug f) slug = (findPaste store slug).map f := by
  induction store with
  | nil => rfl
  | cons q t ih =>
    by_cases hq : (q.slug == slug) = true
    · unfold updateStore findPaste at ih ⊢
      simp only [List.map_cons, List.find?_cons, hq, eq_self_iff_true, if_true,
        hf q, Option.map_some']
    · have hq' : (q.slug == slug) = false := Bool.eq_false_iff.mpr hq
      unfold updateStore findPaste at ih ⊢
      simp only [List.map_cons, List.find?_cons, hq', Bool.false_eq_true, if_false]
      exact ih

/-- A record whose slug is not the updated one is kept verbatim by
`updateStore`. -/
theorem mem_updateStore_of_ne (store : List Paste) (slug : String)
    (f : Paste → Paste) (q : Paste) (hq : q ∈ store) (hne : q.slug ≠ slug) :
    q ∈ updateStore store slug f := by
  unfold updateStore
  have hgq : (fun p => if p.slug == slug then f p else p) q = q := by
    simp [beq_eq_false_iff_ne.mpr hne]
  rw [← hgq]
  exact List.mem_map_of_mem _ hq

/-- Introduction rule for `goodSlugB`. -/
theorem goodSlugB_intro {s : String} (h1 : s ≠ "")
    (h2 : s.data.all isSlugChar = true) : goodSlugB s = true := by
  unfold goodSlugB
  rw [Bool.and_eq_true]
  refine ⟨?_, h2⟩
  rw [Bool.not_eq_true', beq_eq_false_iff_ne]
  exact h1

/-- Elimination rule for `goodSlugB`. -/
theorem goodSlugB_elim {s : String} (h : goodSlugB s = true) :
    s ≠ "" ∧ s.data.all isSlugChar = true := by
  unfold goodSlugB at h
  rw [Bool.and_eq_true] at h
  refine ⟨?_, h.2⟩
  have h1 := h.1
  rw [Bool.not_eq_true', beq_eq_false_iff_ne] at h1
  exact h1

/-! Claim theorems. -/

/-- C2: `render_markdown` is exactly sanitize-after-render — its result is
the allow-list sanitizer (`clean` with `BLEACH_ALLOWED_TAGS` and
`BLEACH_ALLOWED_ATTRIBUTES`) applied to the markup renderer's output on the
content, so nothing reaches the returned value without passing through the
sanitizer. -/
theorem render_markdown_composition (md : String → List String → String)
    (clean : String → List String → List (String × List String) → String)
    (content : String) :
    render_markdown md clean content =
      clean (md content ALLOWED_EXTENSIONS) BLEACH_ALLOWED_TAGS
        BLEACH_ALLOWED_ATTRIBUTES := rfl

/-- C6: whenever `generate_unique_slug` returns a slug, that slug differs
from the slug of every record existing in the store at the time of its
uniqueness check. -/
theorem generate_unique_slug_fresh (tokens : List String) (store : List Paste)
    (s : String) (h : generate_unique_slug tokens store = some s) :
    ∀ p ∈ store, p.slug ≠ s := by
  have hpred := List.find?_some h
  rw [Option.isNone_iff_eq_none] at hpred
  unfold findPaste at hpred
  rw [List.find?_eq_none] at hpred
  intro p hp hslug
  exact hpred p hp (by rw [hslug]; exact beq_self_eq_true s)

/-- Witness for C6 at a concrete store and token stream. -/
theorem generate_unique_slug_fresh_witness :
    (⟨0, "x", "c", "h", 0, none⟩ : Paste).slug ≠ "abc" :=
  generate_unique_slug_fresh ["abc"] [⟨0, "x", "c", "h", 0, none⟩] "abc"
    (by decide) ⟨0, "x", "c", "h", 0, none⟩ (by decide)

/-- C9: a create with empty content fails with `EmptyContent`, and one with
non-empty content but empty password fails with `EmptyPassword`; both
failures precede any durable write and return the store unchanged. -/
theorem create_empty_validation (hashFn : String → String) (now : Nat)
    (tokens : List String) (store : List Paste) (content password raw : String)
    (persistOk : Bool) :
    (content = "" →
      index_post hashFn now tokens store content password raw persistOk =
        some ⟨CreateResult.err CreateError.EmptyContent, store⟩) ∧
    (content ≠ "" → password = "" →
      index_post hashFn now tokens store content password raw persistOk =
        some ⟨CreateResult.err CreateError.EmptyPassword, store⟩) := by
  constructor
  · intro hc
    subst hc
    rfl
  · intro hc hp
    subst hp
    unfold index_post create_with_slug
    rw [if_neg (by simpa using hc)]
    rfl

/-- Witness for C9 at concrete requests. -/
theorem create_empty_validation_witness :
    index_post (fun _ => "H") 0 [] [] "" "p" "" true =
        some ⟨CreateResult.err CreateError.EmptyContent, []⟩ ∧
      index_post (fun _ => "H") 0 [] [] "c" "" "" true =
        some ⟨CreateResult.err CreateError.EmptyPassword, []⟩ :=
  ⟨(create_empty_validation (fun _ => "H") 0 [] [] "" "p" "" true).1 rfl,
   (create_empty_validation (fun _ => "H") 0 [] [] "c" "" "" true).2
     (by decide) rfl⟩

/-- C5: creating with a custom slug equal to the slug of an existing record
(well-formed, as every slug persisted by the application is) with non-empty
content and password fails with `AlreadyTaken` and persists no new
record. -/
theorem create_existing_slug_taken (hashFn : String → String) (now : Nat)
    (tokens : List String) (store : List Paste) (content password s : String)
    (persistOk : Bool) (hc : content ≠ "") (hp : password ≠ "")
    (hgood : goodSlugB s = true) (htaken : (findPaste store s).isSome = true) :
    index_post hashFn now tokens store content password s persistOk =
      some ⟨CreateResult.err CreateError.AlreadyTaken, store⟩ := by
  obtain ⟨hs, hall⟩ := goodSlugB_elim hgood
  have hstrip : pyStrip s = s :=
    pyStrip_eq_self (fun c hcmem => isSlugChar_not_space
      ((List.all_eq_true.mp hall) c hcmem))
  unfold index_post
  rw [hstrip]
  unfold create_with_slug
  rw [if_neg (by simpa using hc), if_neg (by simpa using hp),
    if_neg (by simpa using hs), if_pos (is_safe_slug_of_good hs hall),
    if_pos htaken]

/-- Witness for C5 at a concrete store. -/
theorem create_existing_slug_taken_witness :
    index_post (fun _ => "H") 0 [] [⟨0, "abc", "c", "h", 0, none⟩] "c" "p" "abc"
        true =
      some ⟨CreateResult.err CreateError.AlreadyTaken,
        [⟨0, "abc", "c", "h", 0, none⟩]⟩ :=
  create_existing_slug_taken (fun _ => "H") 0 [] [⟨0, "abc", "c", "h", 0, none⟩]
    "c" "p" "abc" true (by decide) (by decide) (by decide) (by decide)

/-- C3: every failing edit — NotFound, EmptyContent, EmptyPassword,
WrongPassword or PersistenceError — returns the store exactly as it was, so
the addressed record's content, `updated_at`, `created_at` and
`password_hash` all keep their previous values. -/
theorem edit_fail_frame (checkHash : String → String → Bool) (now : Nat)
    (store : List Paste) (slug new_content password : String) (persistOk : Bool)
    (e : UpdateError)
    (h : (edit_paste_post checkHash now store slug new_content password
      persistOk).result = UpdateResult.err e) :
    (edit_paste_post checkHash now store slug new_content password
      persistOk).store = store := by
  rcases edit_paste_post_cases checkHash now store slug new_content password
      persistOk with ⟨e', he⟩ | ⟨paste, _, _, he⟩ | ⟨paste, _, _, he⟩
  · rw [he]
  · rw [he] at h
    exact UpdateResult.noConfusion h
  · rw [he] at h
    exact UpdateResult.noConfusion h

/-- Witness for C3 at a concrete failing edit. -/
theorem edit_fail_frame_witness :
    (edit_paste_post (fun a b => a == b) 0 [] "s" "c" "p" true).store = [] :=
  edit_fail_frame (fun a b => a == b) 0 [] "s" "c" "p" true
    UpdateError.NotFound (by decide)

/-- C4 as stated is false on the code: an edit POST with the correct
password and new content equal to the stored content reports success, but
the session flushes no net change, so no UPDATE is emitted, the `onupdate`
hook never fires, and `updated_at` keeps its previous value — here it stays
`none` instead of becoming the current time `some 7`. -/
theorem edit_noop_counterexample :
    (edit_paste_post (fun a b => a == b) 7 [⟨0, "s", "old", "p", 3, none⟩]
        "s" "old" "p" true).result = UpdateResult.ok ∧
    findPaste (edit_paste_post (fun a b => a == b) 7
        [⟨0, "s", "old", "p", 3, none⟩] "s" "old" "p" true).store "s" =
      some ⟨0, "s", "old", "p", 3, none⟩ ∧
    (⟨0, "s", "old", "p", 3, none⟩ : Paste).updated_at ≠ some 7 := by
  decide

/-- C4 amended: a successful edit whose new content differs from the stored
content rewrites exactly the addressed record — its content becomes the new
content and `updated_at` the current time, while `id`, `slug`, `created_at`
and `password_hash` are unchanged, and records with other slugs are kept
verbatim; a successful edit whose new content equals the stored content
emits no UPDATE (so `onupdate` does not fire) and leaves the store,
`updated_at` included, exactly as it was. -/
theorem edit_success_frame (checkHash : String → String → Bool) (now : Nat)
    (store : List Paste) (slug new_content password : String) (persistOk : Bool)
    (p : Paste) (hfind : findPaste store slug = some p)
    (h : (edit_paste_post checkHash now store slug new_content password
      persistOk).result = UpdateResult.ok) :
    (new_content ≠ p.content →
      findPaste (edit_paste_post checkHash now store slug new_content password
          persistOk).store slug =
        some ⟨p.id, p.slug, new_content, p.password_hash, p.created_at, some now⟩ ∧
      ∀ q ∈ store, q.slug ≠ slug →
        q ∈ (edit_paste_post checkHash now store slug new_content password
          persistOk).store) ∧
    (new_content = p.content →
      (edit_paste_post checkHash now store slug new_content password
        persistOk).store = store) := by
  rcases edit_paste_post_cases checkHash now store slug new_content password
      persistOk with ⟨e, he⟩ | ⟨paste, hf2, hsame, he⟩ | ⟨paste, hf2, hdiff, he⟩
  · rw [he] at h
    exact UpdateResult.noConfusion h
  · have hpp : p = paste := by
      rw [hfind] at hf2
      simpa using hf2
    subst hpp
    constructor
    · intro hne
      exact absurd hsame hne
    · intro _
      rw [he]
  · have hpp : p = paste := by
      rw [hfind] at hf2
      simpa using hf2
    subst hpp
    constructor
    · intro _
      rw [he]
      constructor
      · rw [findPaste_updateStore store slug
            (fun q => { q with content := new_content, updated_at := some now })
            (fun q => rfl), hfind]
        rfl
      · intro q hq hne
        exact mem_updateStore_of_ne store slug _ q hq hne
    · intro hsame
      exact absurd hsame hdiff

/-- Witness for the amended C4 at a concrete content-changing edit. -/
theorem edit_success_frame_witness :
    findPaste (edit_paste_post (fun a b => a == b) 7
        [⟨0, "s", "old", "p", 3, none⟩] "s" "new" "p" true).store "s" =
      some ⟨0, "s", "new", "p", 3, some 7⟩ ∧
    ∀ q ∈ [(⟨0, "s", "old", "p", 3, none⟩ : Paste)], q.slug ≠ "s" →
      q ∈ (edit_paste_post (fun a b => a == b) 7
        [⟨0, "s", "old", "p", 3, none⟩] "s" "new" "p" true).store :=
  (edit_success_frame (fun a b => a == b) 7 [⟨0, "s", "old", "p", 3, none⟩]
    "s" "new" "p" true ⟨0, "s", "old", "p", 3, none⟩ (by decide) (by decide)).1
    (by decide)

/-- C7: creation only ever persists well-formed slugs — non-empty, all
characters in `[a-zA-Z0-9_-]` — given that the random token stream has that
property (the alphabet of `secrets.token_urlsafe` is exactly the base64url
characters, a subset of the slug class) and that every record already in the
store does: a custom slug is stripped and must pass `is_safe_slug`, whose
trailing-newline loophole is closed by the stripping, and a random slug is a
stream token. -/
theorem create_slug_wellformed (hashFn : String → String) (now : Nat)
    (tokens : List String) (store : List Paste) (content password raw : String)
    (persistOk : Bool) (out : CreateOutcome)
    (htok : ∀ t ∈ tokens, goodSlugB t = true)
    (hstore : ∀ p ∈ store, goodSlugB p.slug = true)
    (h : index_post hashFn now tokens store content password raw persistOk =
      some out) :
    ∀ p ∈ out.store, goodSlugB p.slug = true := by
  rcases create_with_slug_cases hashFn now tokens store content password
      (pyStrip raw) persistOk out h with hsame | ⟨slug, hout, hslug⟩
  · rw [hsame]
    exact hstore
  · rw [hout]
    intro p hp
    rcases List.mem_append.mp hp with hp | hp
    · exact hstore p hp
    · have hpeq : p = ⟨store.length, slug, content, hashFn password, now, none⟩ := by
        simpa using hp
      subst hpeq
      show goodSlugB slug = true
      rcases hslug with ⟨hstrip, hsafe, hne⟩ | hgus
      · rcases (is_safe_slug_iff slug).mp hsafe with ⟨hd, hall⟩ | ⟨t, ht, _, _⟩
        · exact goodSlugB_intro (String.ne_empty_iff_data.mpr hd) hall
        · exfalso
          have hLast : slug.data.getLast? = some '\n' := by
            rw [ht]
            exact List.getLast?_concat t
          have hsp := pyStripList_getLast?_not_space raw.data '\n'
            (by rw [← pyStrip_data, hstrip]; exact hLast)
          exact absurd hsp (by decide)
      · exact htok slug (List.mem_of_find?_eq_some hgus)

/-- Witness for C7 at a concrete random-slug creation. -/
theorem create_slug_wellformed_witness :
    goodSlugB (⟨0, "tok1", "c", "H", 0, none⟩ : Paste).slug = true :=
  create_slug_wellformed (fun _ => "H") 0 ["tok1"] [] "c" "p" "" true
    ⟨CreateResult.ok "tok1", [⟨0, "tok1", "c", "H", 0, none⟩]⟩
    (by decide) (by decide) (by decide) ⟨0, "tok1", "c", "H", 0, none⟩ (by decide)

/-- C8: the invariant "`updated_at`, when present, is ≥ `created_at`" is
preserved by the create handler (which leaves `updated_at` absent on the new
record) and by the edit handler (which stamps `updated_at` with the current
time), for any store satisfying it whose creation times do not exceed the
current clock. -/
theorem timestamps_ordered (hashFn : String → String)
    (checkHash : String → String → Bool) (now : Nat) (tokens : List String)
    (store : List Paste) (content password raw slug new_content epassword : String)
    (persistOk epersistOk : Bool) (out : CreateOutcome)
    (hstore : ∀ p ∈ store, pasteTimeOk p)
    (hnow : ∀ p ∈ store, p.created_at ≤ now) :
    (index_post hashFn now tokens store content password raw persistOk =
        some out →
      ∀ p ∈ out.store, pasteTimeOk p) ∧
    (∀ p ∈ (edit_paste_post checkHash now store slug new_content epassword
        epersistOk).store, pasteTimeOk p) := by
  constructor
  · intro h
    rcases create_with_slug_cases hashFn now tokens store content password
        (pyStrip raw) persistOk out h with hsame | ⟨s, hout, _⟩
    · rw [hsame]
      exact hstore
    · rw [hout]
      intro p hp
      rcases List.mem_append.mp hp with hp | hp
      · exact hstore p hp
      · have hpeq : p = ⟨store.length, s, content, hashFn password, now, none⟩ := by
          simpa using hp
        subst hpeq
        intro t ht
        exact Option.noConfusion ht
  · rcases edit_paste_post_cases checkHash now store slug new_content epassword
        epersistOk with ⟨e, he⟩ | ⟨paste, _, _, he⟩ | ⟨paste, _, _, he⟩
    · rw [he]
      exact hstore
    · rw [he]
      exact hstore
    · rw [he]
      intro p hp
      unfold updateStore at hp
      rcases List.mem_map.mp hp with ⟨q, hq, hqe⟩
      by_cases hqs : (q.slug == slug) = true
      · rw [if_pos hqs] at hqe
        subst hqe
        intro t ht
        have htn : now = t := by simpa using ht
        exact htn ▸ hnow q hq
      · rw [if_neg hqs] at hqe
        subst hqe
        exact hstore q hq

/-- Witness for C8 at a concrete store, create and edit. -/
theorem timestamps_ordered_witness :
    (index_post (fun _ => "H") 7 ["t1"] [⟨0, "s", "c", "p", 3, none⟩] "c2" "pw"
        "" true =
        some ⟨CreateResult.ok "t1",
          [⟨0, "s", "c", "p", 3, none⟩, ⟨1, "t1", "c2", "H", 7, none⟩]⟩ →
      ∀ p ∈ (⟨CreateResult.ok "t1",
          [⟨0, "s", "c", "p", 3, none⟩,
            ⟨1, "t1", "c2", "H", 7, none⟩]⟩ : CreateOutcome).store,
        pasteTimeOk p) ∧
    (∀ p ∈ (edit_paste_post (fun a b => a == b) 7 [⟨0, "s", "c", "p", 3, none⟩]
        "s" "new" "p" true).store, pasteTimeOk p) :=
  timestamps_ordered (fun _ => "H") (fun a b => a == b) 7 ["t1"]
    [⟨0, "s", "c", "p", 3, none⟩] "c2" "pw" "" "s" "new" "p" true true
    ⟨CreateResult.ok "t1",
      [⟨0, "s", "c", "p", 3, none⟩, ⟨1, "t1", "c2", "H", 7, none⟩]⟩
    (by
      intro p hp
      have hpe : p = ⟨0, "s", "c", "p", 3, none⟩ := by simpa using hp
      subst hpe
      intro t ht
      exact Option.noConfusion ht)
    (by
      intro p hp
      have hpe : p = ⟨0, "s", "c", "p", 3, none⟩ := by simpa using hp
      subst hpe
      decide)

/-- C10: the create handler depends on the submitted custom slug only
through its whitespace-stripped form — the strip happens before any
validation or uniqueness check — so a blank-padded candidate like
`" my-post "` is allocated as the slug `"my-post"`, and a whitespace-only
candidate is treated as absent and takes the random-allocation path. -/
theorem create_strips_custom_slug :
    (∀ (hashFn : String → String) (now : Nat) (tokens : List String)
        (store : List Paste) (content password raw1 raw2 : String)
        (persistOk : Bool), pyStrip raw1 = pyStrip raw2 →
      index_post hashFn now tokens store content password raw1 persistOk =
        index_post hashFn now tokens store content password raw2 persistOk) ∧
    index_post (fun _ => "H") 0 [] [] "c" "p" " my-post " true =
      some ⟨CreateResult.ok "my-post", [⟨0, "my-post", "c", "H", 0, none⟩]⟩ ∧
    index_post (fun _ => "H") 0 ["tok1"] [] "c" "p" " \t " true =
      some ⟨CreateResult.ok "tok1", [⟨0, "tok1", "c", "H", 0, none⟩]⟩ := by
  refine ⟨?_, by decide, by decide⟩
  intro hashFn now tokens store content password raw1 raw2 persistOk hstrip
  unfold index_post
  rw [hstrip]

/-- Witness for C10: a padded and an unpadded candidate produce the same
outcome. -/
theorem create_strips_custom_slug_witness :
    index_post (fun _ => "H") 0 [] [] "c" "p" " abc " true =
      index_post (fun _ => "H") 0 [] [] "c" "p" "abc" true :=
  create_strips_custom_slug.1 (fun _ => "H") 0 [] [] "c" "p" " abc " "abc" true
    (by decide)

/-- C1 as stated is false on the code: `is_safe_slug` accepts `"abc\n"`
although `'\n'` is outside `[a-zA-Z0-9_-]` (Python's `$` also matches just
before a newline that ends the string), and the handler accepts the
submitted string `" a "` although it contains characters outside the class,
because it strips it before validating. -/
theorem is_safe_slug_claim_counterexample :
    (is_safe_slug "abc\n" = true ∧ '\n' ∈ "abc\n".data ∧
      isSlugChar '\n' = false) ∧
    (index_post (fun _ => "H") 0 [] [] "c" "p" " a " true =
        some ⟨CreateResult.ok "a", [⟨0, "a", "c", "H", 0, none⟩]⟩ ∧
      ' ' ∈ " a ".data ∧ isSlugChar ' ' = false) := by
  exact ⟨⟨by decide, by decide, by decide⟩, by decide, by decide, by decide⟩

/-- C1 amended: `is_safe_slug` returns true iff the candidate is a non-empty
string of characters in `[a-zA-Z0-9_-]`, or such a string followed by one
final newline (an artifact of Python `$`); and the create handler — whose
candidate is stripped first, which makes the newline loophole unreachable —
fails with `InvalidFormat` exactly when the stripped candidate is non-empty
and contains a character outside the class, assuming non-empty content and
password. -/
theorem is_safe_slug_spec :
    (∀ s : String, is_safe_slug s = true ↔
      (s.data ≠ [] ∧ s.data.all isSlugChar = true) ∨
      (∃ t, s.data = t ++ ['\n'] ∧ t ≠ [] ∧ t.all isSlugChar = true)) ∧
    (∀ (hashFn : String → String) (now : Nat) (tokens : List String)
        (store : List Paste) (content password raw : String) (persistOk : Bool),
      content ≠ "" → password ≠ "" →
      (index_post hashFn now tokens store content password raw persistOk =
          some ⟨CreateResult.err CreateError.InvalidFormat, store⟩ ↔
        (pyStrip raw ≠ "" ∧ ¬(pyStrip raw).data.all isSlugChar = true))) := by
  constructor
  · exact is_safe_slug_iff
  · intro hashFn now tokens store content password raw persistOk hc hp
    unfold index_post create_with_slug
    rw [if_neg (by simpa using hc), if_neg (by simpa using hp)]
    by_cases hs : pyStrip raw = ""
    · rw [if_pos (by simpa using hs)]
      constructor
      · intro h
        cases hgus : generate_unique_slug tokens store with
        | none =>
          simp only [hgus] at h
          exact Option.noConfusion h
        | some s =>
          simp only [hgus] at h
          unfold insert_paste at h
          split at h <;> simp at h
      · rintro ⟨hne, _⟩
        exact absurd hs hne
    · rw [if_neg (by simpa using hs)]
      by_cases hsafe : is_safe_slug (pyStrip raw) = true
      · rw [if_pos hsafe]
        constructor
        · intro h
          split at h
          · simp at h
          · unfold insert_paste at h
            split at h <;> simp at h
        · rintro ⟨hne, hall⟩
          exfalso
          rcases (is_safe_slug_iff (pyStrip raw)).mp hsafe with ⟨_, h2⟩ |
            ⟨t, ht, _, _⟩
          · exact hall h2
          · have hLast : (pyStrip raw).data.getLast? = some '\n' := by
              rw [ht]
              exact List.getLast?_concat t
            have hsp := pyStripList_getLast?_not_space raw.data '\n'
              (by rw [← pyStrip_data]; exact hLast)
            exact absurd hsp (by decide)
      · rw [if_neg hsafe]
        constructor
        · intro _
          exact ⟨hs, fun hall => hsafe (is_safe_slug_of_good hs hall)⟩
        · intro _
          rfl

/-- Witness for the amended C1 at a concrete invalid candidate. -/
theorem is_safe_slug_spec_witness :
    index_post (fun _ => "H") 0 [] [] "c" "p" " a! " true =
      some ⟨CreateResult.err CreateError.InvalidFormat, []⟩ :=
  (is_safe_slug_spec.2 (fun _ => "H") 0 [] [] "c" "p" " a! " true (by decide)
    (by decide)).mpr (by decide)
